import Mathlib

/-!
Verification of the quiz backend (catalog creation, random sampling, attempt
recording) against its specification.

The embedding models the relational store as in-memory lists of rows and the
route handlers of the quiz router as pure state-passing functions.  Generated
primary keys (cuid strings in the schema) carry no information beyond
distinctness, so they are modelled as naturals drawn from a monotone counter
held next to the store.  User ids referenced by exam attempts are supplied by
the client in the request body and are kept as strings.  Timestamps are
modelled as a natural number passed in as the creation instant.
-/

/-- A Subject row: `{id, name}`, name globally unique. -/
structure Subject where
  id : Nat
  name : String
deriving DecidableEq

/-- A Topic row: `{id, name, subjectId}`, name globally unique. -/
structure Topic where
  id : Nat
  name : String
  subjectId : Nat
deriving DecidableEq

/-- A Question row: `{id, text, topicId}`. -/
structure Question where
  id : Nat
  text : String
  topicId : Nat
deriving DecidableEq

/-- A Choice row: `{id, text, isCorrect, questionId}`. -/
structure Choice where
  id : Nat
  text : String
  isCorrect : Bool
  questionId : Nat
deriving DecidableEq

/-- An ExamAttempt row: `{id, score, date, userId}`; `date` defaults to the
creation instant (`CURRENT_TIMESTAMP`). -/
structure ExamAttempt where
  id : Nat
  score : Int
  date : Nat
  userId : String
deriving DecidableEq

/-- The relational store: one list of rows per table. -/
structure Store where
  subjects : List Subject
  topics : List Topic
  questions : List Question
  choices : List Choice
  attempts : List ExamAttempt
deriving DecidableEq

/-- The store together with the id counter used to generate fresh keys. -/
structure DB where
  store : Store
  nextId : Nat
deriving DecidableEq

/-- One choice of the request body of `POST /create`: `{text, isCorrect}`. -/
structure ChoiceInput where
  text : String
  isCorrect : Bool
deriving DecidableEq

/-- One question of the request body of `POST /create`:
`{text, choices: [...]}`. -/
structure QuestionInput where
  text : String
  choices : List ChoiceInput
deriving DecidableEq

/-- The payload returned for one created question by `prisma.question.create`.
The call at quiz-routes `/create` passes nested `choices: { create: ... }` but
no `include`, and the Prisma default payload of `create` carries only the
scalar fields of the model, never its relations; the `choices` component is
therefore `none` in every record the handler returns.  The field exists in the
type so that statements about the presence of nested choices in the response
can be expressed. -/
structure CreatedQuestionPayload where
  id : Nat
  text : String
  topicId : Nat
  choices : Option (List Choice)
deriving DecidableEq

/-- `prisma.subject.upsert({where: {name}, update: {}, create: {name}})`:
return the row with that name if present, else insert a fresh row. -/
def subjectUpsert (db : DB) (name : String) : Subject × DB :=
  match db.store.subjects.find? (fun s => s.name == name) with
  | some s => (s, db)
  | none =>
    let s : Subject := ⟨db.nextId, name⟩
    (s, ⟨{ db.store with subjects := db.store.subjects ++ [s] }, db.nextId + 1⟩)

/-- `prisma.topic.upsert({where: {name}, update: {}, create: {name, subjectId}})`:
the `update: {}` branch is a no-op, so an existing row keeps all its fields,
its `subjectId` included. -/
def topicUpsert (db : DB) (name : String) (subjectId : Nat) : Topic × DB :=
  match db.store.topics.find? (fun t => t.name == name) with
  | some t => (t, db)
  | none =>
    let t : Topic := ⟨db.nextId, name, subjectId⟩
    (t, ⟨{ db.store with topics := db.store.topics ++ [t] }, db.nextId + 1⟩)

/-- Insert one Choice row with a fresh id for question `qid`. -/
def addChoiceRow (db : DB) (qid : Nat) (c : ChoiceInput) : DB :=
  ⟨{ db.store with choices := db.store.choices ++ [⟨db.nextId, c.text, c.isCorrect, qid⟩] },
    db.nextId + 1⟩

/-- Insert the nested `choices: { create: [...] }` rows of one question. -/
def choicesCreate (db : DB) (qid : Nat) : List ChoiceInput → DB
  | [] => db
  | c :: cs => choicesCreate (addChoiceRow db qid c) qid cs

/-- `prisma.question.create({data: {text, topicId, choices: {create: ...}}})`:
insert the Question row and its nested Choice rows in one atomic step and
return the default payload (scalar fields only, see `CreatedQuestionPayload`). -/
def questionCreate (db : DB) (topicId : Nat) (q : QuestionInput) :
    CreatedQuestionPayload × DB :=
  let qid := db.nextId
  let db1 : DB :=
    ⟨{ db.store with questions := db.store.questions ++ [⟨qid, q.text, topicId⟩] }, qid + 1⟩
  (⟨qid, q.text, topicId, none⟩, choicesCreate db1 qid q.choices)

/-- The `questions.map(...)` / `Promise.all` loop of the `/create` handler,
linearised in list order: create every question with its nested choices and
collect the returned payloads. -/
def questionsCreate (db : DB) (topicId : Nat) :
    List QuestionInput → List CreatedQuestionPayload × DB
  | [] => ([], db)
  | q :: qs =>
    let r1 := questionCreate db topicId q
    let r2 := questionsCreate r1.2 topicId qs
    (r1.1 :: r2.1, r2.2)

/-- The body of `POST /create`: upsert the Subject by name, upsert the Topic
by name under that subject, then create every question with its choices. -/
def createQuiz (db : DB) (subjectName topicName : String) (qs : List QuestionInput) :
    List CreatedQuestionPayload × DB :=
  let r1 := subjectUpsert db subjectName
  let r2 := topicUpsert r1.2 topicName r1.1.id
  questionsCreate r2.2 r2.1.id qs

/-- The `/create` handler: respond 201 with the created question payloads. -/
def createQuizHandler (db : DB) (subjectName topicName : String)
    (qs : List QuestionInput) : (Nat × List CreatedQuestionPayload) × DB :=
  let r := createQuiz db subjectName topicName qs
  ((201, r.1), r.2)

/-- Errors of the `GET /random` handler: 400, 404, and the 500 branch. -/
inductive ApiError where
  | invalidArgument
  | notFound
  | storageFailure
deriving DecidableEq

/-- A choice as returned by `GET /random`: the `findMany` uses
`select: { id: true, text: true }`, so the record has exactly these fields. -/
structure PublicChoice where
  id : Nat
  text : String
deriving DecidableEq

/-- A question as returned by `GET /random`: the raw query selects
`id, text, "topicId"` and the handler attaches the selected choices. -/
structure SampledQuestion where
  id : Nat
  text : String
  topicId : Nat
  choices : List PublicChoice
deriving DecidableEq

/-- JS truthiness of a query-string parameter: absent and empty are falsy,
every other string is truthy. -/
def presentParam : Option String → Bool
  | none => false
  | some s => !(s == "")

/-- The choices attached to one sampled question:
`choice.findMany({where: {questionId}, select: {id, text}})`, in stored order. -/
def publicChoices (db : DB) (qid : Nat) : List PublicChoice :=
  (db.store.choices.filter (fun c => c.questionId == qid)).map (fun c => ⟨c.id, c.text⟩)

/-- The rows satisfying `WHERE "topicId" = topic.id`, in stored order. -/
def eligibleQuestions (db : DB) (topicId : Nat) : List Question :=
  db.store.questions.filter (fun q => q.topicId == topicId)

/-- The numeric value of a decimal digit, if any. -/
def digit? (c : Char) : Option Nat :=
  if c = '0' then some 0 else if c = '1' then some 1 else if c = '2' then some 2
  else if c = '3' then some 3 else if c = '4' then some 4 else if c = '5' then some 5
  else if c = '6' then some 6 else if c = '7' then some 7 else if c = '8' then some 8
  else if c = '9' then some 9 else none

/-- Accumulate a decimal natural from a list of digits; `none` on any
non-digit. -/
def parseDigitsAux : Nat → List Char → Option Nat
  | n, [] => some n
  | n, c :: cs =>
    match digit? c with
    | some d => parseDigitsAux (n * 10 + d) cs
    | none => none

/-- The JS `Number(...)` conversion of the count query parameter, restricted
to optional-sign decimal integer strings: those are the only inputs the
handler gives a finite integral value to.  Strings on which `Number` yields
`NaN` or a fractional value map to `none`, which the raw query turns into the
generic failure branch. -/
def jsNumber? (s : String) : Option Int :=
  match s.data with
  | [] => some 0
  | '-' :: cs => (parseDigitsAux 0 cs).map (fun n => -(n : Int))
  | l => (parseDigitsAux 0 l).map (fun n => (n : Int))

/-- The body of `GET /random`.  `rand` stands for the reordering the store
applies for `ORDER BY RANDOM()` (the randomness source is external to the
handler); the theorems that need it assume the reordered rows are a
permutation of the eligible rows.  The count parameter is the raw query
string: a missing or empty value fails the truthiness check; a present value
is converted with `Number(...)` (see `jsNumber?`); a non-numeric or negative
limit makes the raw query fail, the 500 branch. -/
def sampleQuestions (db : DB) (rand : List Question → List Question)
    (topicName count : Option String) : Except ApiError (List SampledQuestion) :=
  if presentParam topicName && presentParam count then
    match db.store.topics.find? (fun t => t.name == topicName.getD "") with
    | none => Except.error ApiError.notFound
    | some topic =>
      match jsNumber? (count.getD "") with
      | none => Except.error ApiError.storageFailure
      | some k =>
        if k < 0 then Except.error ApiError.storageFailure
        else
          Except.ok (((rand (eligibleQuestions db topic.id)).take k.toNat).map
            (fun q => ⟨q.id, q.text, q.topicId, publicChoices db q.id⟩))
  else Except.error ApiError.invalidArgument

/-- Whether the question with id `qid` appears in a successful sample. -/
def sampleIncludes (db : DB) (rand : List Question → List Question)
    (topicName count : Option String) (qid : Nat) : Bool :=
  match sampleQuestions db rand topicName count with
  | Except.ok out => out.any (fun sq => sq.id == qid)
  | Except.error _ => false

/-- Modelled from the spec: the store primitive behind `ORDER BY RANDOM()` is
not part of this repository; the spec asks for a uniform random sample without
replacement, realised by reading the eligible rows in an order drawn uniformly
at random.  `permuteBy σ v` is the list of the `n` eligible rows `v` read in
the order `σ`. -/
def permuteBy {n : Nat} (σ : Equiv.Perm (Fin n)) (v : Fin n → Question) : List Question :=
  List.ofFn (fun p => v (σ p))

/-- `prisma.examAttempt.create({data: {score, userId}})` of `POST /submit`:
insert one ExamAttempt row whose `date` is the creation instant `now`, and
return the created record (the Prisma `create` payload), its generated id and
timestamp included.  This is the `recordAttempt` operation of the spec. -/
def recordAttempt (db : DB) (now : Nat) (userId : String) (score : Int) :
    ExamAttempt × DB :=
  let a : ExamAttempt := ⟨db.nextId, score, now, userId⟩
  (a, ⟨{ db.store with attempts := db.store.attempts ++ [a] }, db.nextId + 1⟩)

/-- Re-read a persisted attempt by id. -/
def getAttempt (db : DB) (aid : Nat) : Option ExamAttempt :=
  db.store.attempts.find? (fun a => a.id == aid)

/-- The empty database. -/
def emptyDB : DB := ⟨⟨[], [], [], [], []⟩, 0⟩

/-- A small concrete database: one subject, one topic "T", two questions under
it, three choices. -/
def dbT : DB :=
  ⟨⟨[⟨0, "S"⟩], [⟨1, "T", 0⟩], [⟨2, "Q1", 1⟩, ⟨3, "Q2", 1⟩],
    [⟨4, "A", true, 2⟩, ⟨5, "B", false, 2⟩, ⟨6, "C", true, 3⟩], []⟩, 7⟩

theorem subjectUpsert_found {db : DB} {sn : String} {s : Subject}
    (h : db.store.subjects.find? (fun x => x.name == sn) = some s) :
    subjectUpsert db sn = (s, db) := by
  unfold subjectUpsert
  rw [h]

theorem subjectUpsert_new {db : DB} {sn : String}
    (h : db.store.subjects.find? (fun x => x.name == sn) = none) :
    subjectUpsert db sn =
      (⟨db.nextId, sn⟩,
        ⟨{ db.store with subjects := db.store.subjects ++ [⟨db.nextId, sn⟩] },
          db.nextId + 1⟩) := by
  unfold subjectUpsert
  rw [h]

theorem topicUpsert_found {db : DB} {tn : String} {sid : Nat} {t : Topic}
    (h : db.store.topics.find? (fun x => x.name == tn) = some t) :
    topicUpsert db tn sid = (t, db) := by
  unfold topicUpsert
  rw [h]

theorem topicUpsert_new {db : DB} {tn : String} {sid : Nat}
    (h : db.store.topics.find? (fun x => x.name == tn) = none) :
    topicUpsert db tn sid =
      (⟨db.nextId, tn, sid⟩,
        ⟨{ db.store with topics := db.store.topics ++ [⟨db.nextId, tn, sid⟩] },
          db.nextId + 1⟩) := by
  unfold topicUpsert
  rw [h]

theorem subjectUpsert_store (db : DB) (sn : String) :
    (subjectUpsert db sn).2.store.topics = db.store.topics ∧
    (subjectUpsert db sn).2.store.questions = db.store.questions ∧
    (subjectUpsert db sn).2.store.choices = db.store.choices ∧
    (subjectUpsert db sn).2.store.attempts = db.store.attempts ∧
    db.nextId ≤ (subjectUpsert db sn).2.nextId := by
  unfold subjectUpsert
  split <;> simp [Nat.le_succ]

theorem topicUpsert_store (db : DB) (tn : String) (sid : Nat) :
    (topicUpsert db tn sid).2.store.subjects = db.store.subjects ∧
    (topicUpsert db tn sid).2.store.questions = db.store.questions ∧
    (topicUpsert db tn sid).2.store.choices = db.store.choices ∧
    (topicUpsert db tn sid).2.store.attempts = db.store.attempts ∧
    db.nextId ≤ (topicUpsert db tn sid).2.nextId := by
  unfold topicUpsert
  split <;> simp [Nat.le_succ]

theorem subjectUpsert_name_mem (db : DB) (sn : String) :
    (subjectUpsert db sn).1.name = sn ∧
    (subjectUpsert db sn).1 ∈ (subjectUpsert db sn).2.store.subjects := by
  unfold subjectUpsert
  split
  next s h =>
    exact ⟨by simpa using List.find?_some h, by simpa using List.mem_of_find?_eq_some h⟩
  next h => simp

theorem topicUpsert_name_mem (db : DB) (tn : String) (sid : Nat) :
    (topicUpsert db tn sid).1.name = tn ∧
    (topicUpsert db tn sid).1 ∈ (topicUpsert db tn sid).2.store.topics := by
  unfold topicUpsert
  split
  next t h =>
    exact ⟨by simpa using List.find?_some h, by simpa using List.mem_of_find?_eq_some h⟩
  next h => simp

theorem choicesCreate_store (qid : Nat) (cs : List ChoiceInput) (db : DB) :
    (choicesCreate db qid cs).store.subjects = db.store.subjects ∧
    (choicesCreate db qid cs).store.topics = db.store.topics ∧
    (choicesCreate db qid cs).store.questions = db.store.questions ∧
    (choicesCreate db qid cs).store.attempts = db.store.attempts ∧
    db.nextId ≤ (choicesCreate db qid cs).nextId := by
  induction cs generalizing db with
  | nil => simp [choicesCreate]
  | cons c cs ih =>
    have h := ih (addChoiceRow db qid c)
    simp only [addChoiceRow] at h
    unfold choicesCreate
    exact ⟨h.1, h.2.1, h.2.2.1, h.2.2.2.1, le_trans (Nat.le_succ _) h.2.2.2.2⟩

theorem choicesCreate_choices (qid : Nat) (cs : List ChoiceInput) (db : DB) :
    ∃ l, (choicesCreate db qid cs).store.choices = db.store.choices ++ l ∧
      l.length = cs.length ∧ ∀ c ∈ l, c.questionId = qid := by
  induction cs generalizing db with
  | nil => exact ⟨[], by simp [choicesCreate]⟩
  | cons c cs ih =>
    obtain ⟨l, h1, h2, h3⟩ := ih (addChoiceRow db qid c)
    refine ⟨⟨db.nextId, c.text, c.isCorrect, qid⟩ :: l, ?_, by simp [h2], ?_⟩
    · unfold choicesCreate
      rw [h1]
      simp [addChoiceRow]
    · intro a ha
      rcases List.mem_cons.1 ha with h | h
      · subst h; rfl
      · exact h3 a h

theorem questionCreate_payload (db : DB) (tid : Nat) (q : QuestionInput) :
    (questionCreate db tid q).1 = ⟨db.nextId, q.text, tid, none⟩ := rfl

theorem questionCreate_nextId (db : DB) (tid : Nat) (q : QuestionInput) :
    db.nextId < (questionCreate db tid q).2.nextId := by
  simp only [questionCreate]
  have h := (choicesCreate_store db.nextId q.choices
    ⟨{ db.store with questions := db.store.questions ++ [⟨db.nextId, q.text, tid⟩] },
      db.nextId + 1⟩).2.2.2.2
  simp only at h
  omega

theorem questionCreate_store (db : DB) (tid : Nat) (q : QuestionInput) :
    (questionCreate db tid q).2.store.subjects = db.store.subjects ∧
    (questionCreate db tid q).2.store.topics = db.store.topics ∧
    (questionCreate db tid q).2.store.attempts = db.store.attempts ∧
    (questionCreate db tid q).2.store.questions
      = db.store.questions ++ [⟨db.nextId, q.text, tid⟩] := by
  simp only [questionCreate]
  have h := choicesCreate_store db.nextId q.choices
    ⟨{ db.store with questions := db.store.questions ++ [⟨db.nextId, q.text, tid⟩] },
      db.nextId + 1⟩
  exact ⟨h.1, h.2.1, h.2.2.2.1, h.2.2.1⟩

theorem questionCreate_choices (db : DB) (tid : Nat) (q : QuestionInput) :
    ∃ l, (questionCreate db tid q).2.store.choices = db.store.choices ++ l ∧
      l.length = q.choices.length ∧ ∀ c ∈ l, c.questionId = db.nextId := by
  simp only [questionCreate]
  exact choicesCreate_choices db.nextId q.choices
    ⟨{ db.store with questions := db.store.questions ++ [⟨db.nextId, q.text, tid⟩] },
      db.nextId + 1⟩

theorem questionCreate_fresh (db : DB) (tid : Nat) (q : QuestionInput)
    (hfresh : ∀ c ∈ db.store.choices, c.questionId < db.nextId) :
    ∀ c ∈ (questionCreate db tid q).2.store.choices,
      c.questionId < (questionCreate db tid q).2.nextId := by
  obtain ⟨l, h1, _, h3⟩ := questionCreate_choices db tid q
  have hlt := questionCreate_nextId db tid q
  intro c hc
  rw [h1] at hc
  rcases List.mem_append.1 hc with h | h
  · exact lt_of_lt_of_le (hfresh c h) (Nat.le_of_lt hlt)
  · rw [h3 c h]; exact hlt

theorem questionsCreate_spec (tid : Nat) (qs : List QuestionInput) (db : DB) :
    (questionsCreate db tid qs).1.length = qs.length ∧
    (questionsCreate db tid qs).2.store.subjects = db.store.subjects ∧
    (questionsCreate db tid qs).2.store.topics = db.store.topics ∧
    (questionsCreate db tid qs).2.store.attempts = db.store.attempts ∧
    (questionsCreate db tid qs).2.store.questions.length
      = db.store.questions.length + qs.length ∧
    db.nextId ≤ (questionsCreate db tid qs).2.nextId := by
  induction qs generalizing db with
  | nil => simp [questionsCreate]
  | cons q qs ih =>
    have hq := questionCreate_store db tid q
    have hn := questionCreate_nextId db tid q
    have h := ih (questionCreate db tid q).2
    simp only [questionsCreate]
    refine ⟨by simp [h.1], ?_, ?_, ?_, ?_, ?_⟩
    · rw [h.2.1, hq.1]
    · rw [h.2.2.1, hq.2.1]
    · rw [h.2.2.2.1, hq.2.2.1]
    · rw [h.2.2.2.2.1, hq.2.2.2]
      simp
      omega
    · exact le_trans (Nat.le_of_lt hn) h.2.2.2.2.2

theorem questionsCreate_fresh (tid : Nat) (qs : List QuestionInput) (db : DB)
    (hfresh : ∀ c ∈ db.store.choices, c.questionId < db.nextId) :
    ∀ c ∈ (questionsCreate db tid qs).2.store.choices,
      c.questionId < (questionsCreate db tid qs).2.nextId := by
  induction qs generalizing db with
  | nil => simpa [questionsCreate] using hfresh
  | cons q qs ih =>
    simp only [questionsCreate]
    exact ih (questionCreate db tid q).2 (questionCreate_fresh db tid q hfresh)

theorem questionsCreate_filter_frame (tid : Nat) (qs : List QuestionInput) (db : DB)
    (qid2 : Nat) (h : qid2 < db.nextId) :
    (questionsCreate db tid qs).2.store.choices.filter (fun c => c.questionId == qid2)
      = db.store.choices.filter (fun c => c.questionId == qid2) := by
  induction qs generalizing db with
  | nil => simp [questionsCreate]
  | cons q qs ih =>
    simp only [questionsCreate]
    have h2 : qid2 < (questionCreate db tid q).2.nextId :=
      lt_trans h (questionCreate_nextId db tid q)
    rw [ih (questionCreate db tid q).2 h2]
    obtain ⟨l, h1, _, h3⟩ := questionCreate_choices db tid q
    rw [h1, List.filter_append]
    have : l.filter (fun c => c.questionId == qid2) = [] := by
      rw [List.filter_eq_nil_iff]
      intro c hc
      rw [h3 c hc]
      simp
      omega
    rw [this, List.append_nil]

theorem questionsCreate_counts (tid : Nat) (qs : List QuestionInput) (db : DB)
    (hfresh : ∀ c ∈ db.store.choices, c.questionId < db.nextId) :
    ∀ (i : Nat) (hi : i < qs.length) (hp : i < (questionsCreate db tid qs).1.length),
      ((questionsCreate db tid qs).2.store.choices.filter
          (fun c => c.questionId == ((questionsCreate db tid qs).1.get ⟨i, hp⟩).id)).length
        = (qs.get ⟨i, hi⟩).choices.length := by
  induction qs generalizing db with
  | nil => intro i hi hp; exact absurd hi (by simp)
  | cons q qs ih =>
    intro i hi hp
    match i with
    | 0 =>
      simp only [questionsCreate, List.get]
      obtain ⟨l, h1, h2, h3⟩ := questionCreate_choices db tid q
      have hid : (questionCreate db tid q).1.id = db.nextId := by
        rw [questionCreate_payload]
      rw [hid]
      rw [questionsCreate_filter_frame tid qs (questionCreate db tid q).2 db.nextId
        (questionCreate_nextId db tid q)]
      rw [h1, List.filter_append]
      have hold : db.store.choices.filter (fun c => c.questionId == db.nextId) = [] := by
        rw [List.filter_eq_nil_iff]
        intro c hc
        have := hfresh c hc
        simp
        omega
      have hnew : l.filter (fun c => c.questionId == db.nextId) = l := by
        rw [List.filter_eq_self]
        intro c hc
        simp [h3 c hc]
      rw [hold, hnew]
      simpa using h2
    | Nat.succ j =>
      simp only [questionsCreate, List.get_cons_succ]
      exact ih (questionCreate db tid q).2 (questionCreate_fresh db tid q hfresh) j
        (by simpa using Nat.lt_of_succ_lt_succ hi)
        (by simpa [questionsCreate] using Nat.lt_of_succ_lt_succ hp)

/-- C3 (amended): for every valid createQuiz input, the returned list has
exactly one entry per input question, and for each input question the store
afterwards holds exactly as many Choice rows for the created question as the
input declared; but the returned records carry only the scalar question
fields, without the nested Choice records (see the counterexample). -/
theorem createQuiz_returns_all_questions (db : DB) (sn tn : String)
    (qs : List QuestionInput)
    (hfresh : ∀ c ∈ db.store.choices, c.questionId < db.nextId) :
    (createQuiz db sn tn qs).1.length = qs.length ∧
    ∀ (i : Nat) (hi : i < qs.length) (hp : i < (createQuiz db sn tn qs).1.length),
      ((createQuiz db sn tn qs).2.store.choices.filter
          (fun c => c.questionId == ((createQuiz db sn tn qs).1.get ⟨i, hp⟩).id)).length
        = (qs.get ⟨i, hi⟩).choices.length := by
  have hsub := subjectUpsert_store db sn
  have htop := topicUpsert_store (subjectUpsert db sn).2 tn (subjectUpsert db sn).1.id
  have hfresh2 : ∀ c ∈ (topicUpsert (subjectUpsert db sn).2 tn
        (subjectUpsert db sn).1.id).2.store.choices,
      c.questionId < (topicUpsert (subjectUpsert db sn).2 tn
        (subjectUpsert db sn).1.id).2.nextId := by
    intro c hc
    rw [htop.2.2.1, hsub.2.2.1] at hc
    exact lt_of_lt_of_le (hfresh c hc) (le_trans hsub.2.2.2.2 htop.2.2.2.2)
  simp only [createQuiz]
  exact ⟨(questionsCreate_spec _ qs _).1, questionsCreate_counts _ qs _ hfresh2⟩

/-- C3 (witness): a concrete run with one question of two choices. -/
theorem createQuiz_returns_all_questions_witness :
    (∀ c ∈ emptyDB.store.choices, c.questionId < emptyDB.nextId) ∧
    ((createQuiz emptyDB "Math" "Algebra" [⟨"Q1", [⟨"A", true⟩, ⟨"B", false⟩]⟩]).1.length
        = [(⟨"Q1", [⟨"A", true⟩, ⟨"B", false⟩]⟩ : QuestionInput)].length ∧
      ∀ (i : Nat) (hi : i < [(⟨"Q1", [⟨"A", true⟩, ⟨"B", false⟩]⟩ : QuestionInput)].length)
        (hp : i < (createQuiz emptyDB "Math" "Algebra"
          [⟨"Q1", [⟨"A", true⟩, ⟨"B", false⟩]⟩]).1.length),
        ((createQuiz emptyDB "Math" "Algebra"
            [⟨"Q1", [⟨"A", true⟩, ⟨"B", false⟩]⟩]).2.store.choices.filter
            (fun c => c.questionId == ((createQuiz emptyDB "Math" "Algebra"
              [⟨"Q1", [⟨"A", true⟩, ⟨"B", false⟩]⟩]).1.get ⟨i, hp⟩).id)).length
          = ([(⟨"Q1", [⟨"A", true⟩, ⟨"B", false⟩]⟩ : QuestionInput)].get ⟨i, hi⟩).choices.length) :=
  ⟨by simp [emptyDB],
    createQuiz_returns_all_questions emptyDB "Math" "Algebra"
      [⟨"Q1", [⟨"A", true⟩, ⟨"B", false⟩]⟩] (by simp [emptyDB])⟩

/-- C3 (counterexample): the claim says each returned Question record includes
its nested Choice records with a choice count equal to the input choice count;
on a concrete input of one question with two choices, the returned record has
no nested choices at all (the component is `none`, never a two-element list),
because `prisma.question.create` is called without `include`. -/
theorem createQuiz_payload_choices_missing :
    ((createQuiz emptyDB "Math" "Algebra" [⟨"Q1", [⟨"A", true⟩, ⟨"B", false⟩]⟩]).1.map
        CreatedQuestionPayload.choices = [none]) ∧
    ¬ ∃ l : List Choice, l.length = 2 ∧
        (createQuiz emptyDB "Math" "Algebra" [⟨"Q1", [⟨"A", true⟩, ⟨"B", false⟩]⟩]).1.map
          CreatedQuestionPayload.choices = [some l] := by
  have h1 : (createQuiz emptyDB "Math" "Algebra"
      [⟨"Q1", [⟨"A", true⟩, ⟨"B", false⟩]⟩]).1.map CreatedQuestionPayload.choices
      = [none] := by decide
  refine ⟨h1, ?_⟩
  rintro ⟨l, -, h⟩
  rw [h1] at h
  simp at h

/-- C9: when the Topic named `tn` already exists, createQuiz leaves the Topic
table completely unchanged (the upsert hits the `update: {}` no-op branch), so
the existing row keeps its `subjectId` and every other field even when the
resolved Subject differs. -/
theorem createQuiz_keeps_existing_topic (db : DB) (sn tn : String)
    (qs : List QuestionInput) (t : Topic)
    (hfind : db.store.topics.find? (fun x => x.name == tn) = some t) :
    (createQuiz db sn tn qs).2.store.topics = db.store.topics := by
  have hsub := subjectUpsert_store db sn
  have hfind2 : (subjectUpsert db sn).2.store.topics.find? (fun x => x.name == tn)
      = some t := by
    rw [hsub.1]; exact hfind
  simp only [createQuiz]
  rw [topicUpsert_found hfind2]
  simp only
  rw [(questionsCreate_spec t.id qs (subjectUpsert db sn).2).2.2.1, hsub.1]

/-- C9 (witness): topic "T" exists under subject 0; creating a quiz naming a
different subject leaves the Topic table untouched. -/
theorem createQuiz_keeps_existing_topic_witness :
    dbT.store.topics.find? (fun x => x.name == "T") = some ⟨1, "T", 0⟩ ∧
    (createQuiz dbT "S2" "T" [⟨"Q3", [⟨"D", true⟩]⟩]).2.store.topics
      = dbT.store.topics :=
  ⟨by decide,
    createQuiz_keeps_existing_topic dbT "S2" "T" [⟨"Q3", [⟨"D", true⟩]⟩] ⟨1, "T", 0⟩
      (by decide)⟩

/-- C10: a createQuiz call with an empty questions list succeeds with 201 and
an empty question list; the Subject and Topic upserts still run (a row with
each name exists afterwards) and no question or choice row is touched.  The
handler performs no validation of the questions input, so no InvalidArgument
is possible on this path. -/
theorem createQuiz_empty_questions_ok (db : DB) (sn tn : String) :
    (createQuizHandler db sn tn []).1 = (201, []) ∧
    (createQuizHandler db sn tn []).2.store.questions = db.store.questions ∧
    (createQuizHandler db sn tn []).2.store.choices = db.store.choices ∧
    (∃ s ∈ (createQuizHandler db sn tn []).2.store.subjects, s.name = sn) ∧
    (∃ t ∈ (createQuizHandler db sn tn []).2.store.topics, t.name = tn) := by
  have hsub := subjectUpsert_store db sn
  have htop := topicUpsert_store (subjectUpsert db sn).2 tn (subjectUpsert db sn).1.id
  have hsn := subjectUpsert_name_mem db sn
  have htn2 := topicUpsert_name_mem (subjectUpsert db sn).2 tn (subjectUpsert db sn).1.id
  simp only [createQuizHandler, createQuiz, questionsCreate]
  refine ⟨by simp, ?_, ?_, ?_, ?_⟩
  · rw [htop.2.1, hsub.2.1]
  · rw [htop.2.2.1, hsub.2.2.1]
  · refine ⟨(subjectUpsert db sn).1, ?_, hsn.1⟩
    rw [htop.1]
    exact hsn.2
  · exact ⟨_, htn2.2, htn2.1⟩

/-- C8: recordAttempt appends exactly one ExamAttempt row holding the exact
score and userId given and the server-assigned creation instant; the returned
record is that row, generated id and timestamp included; re-reading the row by
id yields it unchanged, also after further submissions. -/
theorem recordAttempt_spec (db : DB) (now : Nat) (u : String) (s : Int)
    (hfresh : ∀ a ∈ db.store.attempts, a.id < db.nextId) :
    (recordAttempt db now u s).1.score = s ∧
    (recordAttempt db now u s).1.userId = u ∧
    (recordAttempt db now u s).1.date = now ∧
    (recordAttempt db now u s).1.id = db.nextId ∧
    (recordAttempt db now u s).2.store.attempts
      = db.store.attempts ++ [(recordAttempt db now u s).1] ∧
    getAttempt (recordAttempt db now u s).2 (recordAttempt db now u s).1.id
      = some (recordAttempt db now u s).1 ∧
    ∀ (now2 : Nat) (u2 : String) (s2 : Int),
      getAttempt (recordAttempt (recordAttempt db now u s).2 now2 u2 s2).2
          (recordAttempt db now u s).1.id
        = some (recordAttempt db now u s).1 := by
  have hnone : db.store.attempts.find? (fun a => a.id == db.nextId) = none := by
    rw [List.find?_eq_none]
    intro a ha
    have := hfresh a ha
    simp
    omega
  refine ⟨rfl, rfl, rfl, rfl, rfl, ?_, ?_⟩
  · simp only [recordAttempt, getAttempt]
    rw [List.find?_append, hnone]
    simp
  · intro now2 u2 s2
    simp only [recordAttempt, getAttempt]
    rw [List.find?_append, List.find?_append, hnone]
    simp

/-- C8 (witness): one concrete submission into the empty database. -/
theorem recordAttempt_spec_witness :
    (∀ a ∈ emptyDB.store.attempts, a.id < emptyDB.nextId) ∧
    ((recordAttempt emptyDB 5 "u1" 7).1.score = 7 ∧
      (recordAttempt emptyDB 5 "u1" 7).1.userId = "u1" ∧
      (recordAttempt emptyDB 5 "u1" 7).1.date = 5 ∧
      (recordAttempt emptyDB 5 "u1" 7).1.id = emptyDB.nextId ∧
      (recordAttempt emptyDB 5 "u1" 7).2.store.attempts
        = emptyDB.store.attempts ++ [(recordAttempt emptyDB 5 "u1" 7).1] ∧
      getAttempt (recordAttempt emptyDB 5 "u1" 7).2 (recordAttempt emptyDB 5 "u1" 7).1.id
        = some (recordAttempt emptyDB 5 "u1" 7).1 ∧
      ∀ (now2 : Nat) (u2 : String) (s2 : Int),
        getAttempt (recordAttempt (recordAttempt emptyDB 5 "u1" 7).2 now2 u2 s2).2
            (recordAttempt emptyDB 5 "u1" 7).1.id
          = some (recordAttempt emptyDB 5 "u1" 7).1) :=
  ⟨by simp [emptyDB], recordAttempt_spec emptyDB 5 "u1" 7 (by simp [emptyDB])⟩

/-- C5: two identical createQuiz calls starting from a store without the
names leave exactly one Subject row and one Topic row with those names (the
upserts are idempotent), while the question rows double (question creation is
not idempotent). -/
theorem createQuiz_twice_upsert_idempotent (db : DB) (sn tn : String)
    (qs : List QuestionInput)
    (hs : db.store.subjects.find? (fun s => s.name == sn) = none)
    (ht : db.store.topics.find? (fun t => t.name == tn) = none) :
    ((createQuiz (createQuiz db sn tn qs).2 sn tn qs).2.store.subjects.countP
        (fun s => s.name == sn) = 1) ∧
    ((createQuiz (createQuiz db sn tn qs).2 sn tn qs).2.store.topics.countP
        (fun t => t.name == tn) = 1) ∧
    ((createQuiz (createQuiz db sn tn qs).2 sn tn qs).2.store.questions.length
        = db.store.questions.length + 2 * qs.length) := by
  have e1 := subjectUpsert_new hs
  have hts : (subjectUpsert db sn).2.store.topics.find? (fun t => t.name == tn)
      = none := by
    rw [e1]; exact ht
  have e2 := @topicUpsert_new (subjectUpsert db sn).2 tn (subjectUpsert db sn).1.id hts
  have hsubs1 : (createQuiz db sn tn qs).2.store.subjects
      = db.store.subjects ++ [⟨db.nextId, sn⟩] := by
    simp only [createQuiz]
    rw [(questionsCreate_spec _ qs _).2.1,
      (topicUpsert_store (subjectUpsert db sn).2 tn (subjectUpsert db sn).1.id).1, e1]
  have htop1 : (createQuiz db sn tn qs).2.store.topics
      = db.store.topics ++ [⟨db.nextId + 1, tn, db.nextId⟩] := by
    simp only [createQuiz]
    rw [(questionsCreate_spec _ qs _).2.2.1, e2]
    rw [e1]
  have hqlen1 : (createQuiz db sn tn qs).2.store.questions.length
      = db.store.questions.length + qs.length := by
    simp only [createQuiz]
    rw [(questionsCreate_spec _ qs _).2.2.2.2.1,
      (topicUpsert_store (subjectUpsert db sn).2 tn (subjectUpsert db sn).1.id).2.1,
      (subjectUpsert_store db sn).2.1]
  set db1 := (createQuiz db sn tn qs).2 with hdb1
  have hs2 : db1.store.subjects.find? (fun s => s.name == sn)
      = some ⟨db.nextId, sn⟩ := by
    rw [hsubs1, List.find?_append, hs, Option.none_or]
    rw [List.find?_cons_of_pos]
    simp
  have ht2 : db1.store.topics.find? (fun t => t.name == tn)
      = some ⟨db.nextId + 1, tn, db.nextId⟩ := by
    rw [htop1, List.find?_append, ht, Option.none_or]
    rw [List.find?_cons_of_pos]
    simp
  have hc0 : db.store.subjects.countP (fun s => s.name == sn) = 0 :=
    List.countP_eq_zero.2 (List.find?_eq_none.1 hs)
  have hct0 : db.store.topics.countP (fun t => t.name == tn) = 0 :=
    List.countP_eq_zero.2 (List.find?_eq_none.1 ht)
  simp only [createQuiz]
  rw [subjectUpsert_found hs2]
  dsimp only
  rw [topicUpsert_found ht2]
  dsimp only
  refine ⟨?_, ?_, ?_⟩
  · rw [(questionsCreate_spec _ qs db1).2.1, hsubs1, List.countP_append, hc0]
    simp
  · rw [(questionsCreate_spec _ qs db1).2.2.1, htop1, List.countP_append, hct0]
    simp
  · rw [(questionsCreate_spec _ qs db1).2.2.2.2.1, hqlen1]
    omega

/-- C5 (witness): one concrete double creation from the empty database. -/
theorem createQuiz_twice_upsert_idempotent_witness :
    (emptyDB.store.subjects.find? (fun s => s.name == "S") = none) ∧
    (emptyDB.store.topics.find? (fun t => t.name == "T") = none) ∧
    (((createQuiz (createQuiz emptyDB "S" "T" [⟨"Q", [⟨"A", true⟩]⟩]).2 "S" "T"
        [⟨"Q", [⟨"A", true⟩]⟩]).2.store.subjects.countP
          (fun s => s.name == "S") = 1) ∧
      ((createQuiz (createQuiz emptyDB "S" "T" [⟨"Q", [⟨"A", true⟩]⟩]).2 "S" "T"
        [⟨"Q", [⟨"A", true⟩]⟩]).2.store.topics.countP
          (fun t => t.name == "T") = 1) ∧
      ((createQuiz (createQuiz emptyDB "S" "T" [⟨"Q", [⟨"A", true⟩]⟩]).2 "S" "T"
        [⟨"Q", [⟨"A", true⟩]⟩]).2.store.questions.length
          = emptyDB.store.questions.length + 2 * [(⟨"Q", [⟨"A", true⟩]⟩ : QuestionInput)].length)) :=
  ⟨rfl, rfl,
    createQuiz_twice_upsert_idempotent emptyDB "S" "T" [⟨"Q", [⟨"A", true⟩]⟩] rfl rfl⟩

theorem sampleQuestions_ok (db : DB) (rand : List Question → List Question)
    (tn cnt : String) (topic : Topic) (k : Int)
    (htn : tn ≠ "") (hcne : cnt ≠ "")
    (hfind : db.store.topics.find? (fun t => t.name == tn) = some topic)
    (hcnt : jsNumber? cnt = some k) (hk : 0 ≤ k) :
    sampleQuestions db rand (some tn) (some cnt) =
      Except.ok (((rand (eligibleQuestions db topic.id)).take k.toNat).map
        (fun q => ⟨q.id, q.text, q.topicId, publicChoices db q.id⟩)) := by
  have h1 : presentParam (some tn) = true := by simp [presentParam, htn]
  have h2 : presentParam (some cnt) = true := by simp [presentParam, hcne]
  simp only [sampleQuestions, h1, h2, Bool.and_self, if_true, Option.getD_some,
    hfind, hcnt]
  rw [if_neg (by omega)]

/-- C1: every choice attached to a question in a successful sampler response
is the projection of a stored Choice row to its id and text alone; a
PublicChoice is fully determined by id and text, so no isCorrect flag is
exposed anywhere in the output, and each attached choice list is exactly the
stored choices of that question in stored order, stripped of isCorrect. -/
theorem sampler_strips_isCorrect (db : DB) (rand : List Question → List Question)
    (tn cnt : Option String) (out : List SampledQuestion)
    (h : sampleQuestions db rand tn cnt = Except.ok out) :
    (∀ a b : PublicChoice, a.id = b.id → a.text = b.text → a = b) ∧
    ∀ sq ∈ out, sq.choices = publicChoices db sq.id ∧
      ∀ pc ∈ sq.choices, ∃ c ∈ db.store.choices,
        c.questionId = sq.id ∧ pc.id = c.id ∧ pc.text = c.text := by
  constructor
  · intro a b h1 h2
    cases a; cases b; cases h1; cases h2; rfl
  · unfold sampleQuestions at h
    split at h
    · split at h
      · exact absurd h (by simp)
      · split at h
        · exact absurd h (by simp)
        · split at h
          · exact absurd h (by simp)
          · have hout := Except.ok.inj h
            subst hout
            intro sq hsq
            obtain ⟨q, hq, rfl⟩ := List.mem_map.1 hsq
            refine ⟨rfl, ?_⟩
            intro pc hpc
            obtain ⟨c, hc, rfl⟩ := List.mem_map.1 hpc
            obtain ⟨hcmem, hceq⟩ := List.mem_filter.1 hc
            exact ⟨c, hcmem, by simpa using hceq, rfl, rfl⟩
    · exact absurd h (by simp)

/-- C1 (witness): sampling topic "T" with the identity order. -/
theorem sampler_strips_isCorrect_witness :
    (sampleQuestions dbT (fun l => l) (some "T") (some "5")
      = Except.ok [⟨2, "Q1", 1, [⟨4, "A"⟩, ⟨5, "B"⟩]⟩, ⟨3, "Q2", 1, [⟨6, "C"⟩]⟩]) ∧
    ((∀ a b : PublicChoice, a.id = b.id → a.text = b.text → a = b) ∧
      ∀ sq ∈ [(⟨2, "Q1", 1, [⟨4, "A"⟩, ⟨5, "B"⟩]⟩ : SampledQuestion), ⟨3, "Q2", 1, [⟨6, "C"⟩]⟩],
        sq.choices = publicChoices dbT sq.id ∧
        ∀ pc ∈ sq.choices, ∃ c ∈ dbT.store.choices,
          c.questionId = sq.id ∧ pc.id = c.id ∧ pc.text = c.text) :=
  ⟨rfl, sampler_strips_isCorrect dbT (fun l => l) (some "T") (some "5")
    [⟨2, "Q1", 1, [⟨4, "A"⟩, ⟨5, "B"⟩]⟩, ⟨3, "Q2", 1, [⟨6, "C"⟩]⟩] rfl⟩

/-- C6: a present topicName that resolves to no Topic row makes the sampler
fail with NotFound (404); in particular it never yields an empty 200 list for
an unknown topic. -/
theorem sampler_unknown_topic_notFound (db : DB) (rand : List Question → List Question)
    (tn : String) (cnt : Option String)
    (htn : tn ≠ "") (hcnt : presentParam cnt = true)
    (hfind : db.store.topics.find? (fun t => t.name == tn) = none) :
    sampleQuestions db rand (some tn) cnt = Except.error ApiError.notFound := by
  have h1 : presentParam (some tn) = true := by simp [presentParam, htn]
  simp only [sampleQuestions, h1, hcnt, Bool.and_self, if_true, Option.getD_some, hfind]

/-- C6 (witness): topic "X" is absent from the concrete store. -/
theorem sampler_unknown_topic_notFound_witness :
    ("X" ≠ "") ∧ presentParam (some "2") = true ∧
    dbT.store.topics.find? (fun t => t.name == "X") = none ∧
    sampleQuestions dbT (fun l => l) (some "X") (some "2")
      = Except.error ApiError.notFound :=
  ⟨by decide, rfl, by decide,
    sampler_unknown_topic_notFound dbT (fun l => l) "X" (some "2") (by decide) rfl
      (by decide)⟩

/-- C7 (counterexample): count equal to "0" is not a positive integer, yet the
handler does not reject it with InvalidArgument: the string "0" passes the JS
truthiness check, `Number("0")` is 0, and `LIMIT 0` yields a 200 response with
an empty list. -/
theorem sampler_zero_count_not_rejected :
    sampleQuestions dbT (fun l => l) (some "T") (some "0") = Except.ok [] ∧
    Except.ok ([] : List SampledQuestion) ≠ Except.error ApiError.invalidArgument := by
  refine ⟨rfl, ?_⟩
  intro h
  exact Except.noConfusion h

/-- C7 (amended): a missing or empty count query parameter makes the call
fail with InvalidArgument for every store content and random order, hence
before any question is read; a present count that is not a positive integer is
not rejected that way (see the counterexample). -/
theorem sampler_missing_count_invalidArgument (db : DB)
    (rand : List Question → List Question) (tn : Option String) :
    sampleQuestions db rand tn none = Except.error ApiError.invalidArgument ∧
    sampleQuestions db rand tn (some "") = Except.error ApiError.invalidArgument := by
  constructor <;> simp [sampleQuestions, presentParam]

/-- C2: with a resolving topic and a positive integer count, the sampler
returns a list of exactly min(count, n) questions with pairwise distinct ids,
where n is the number of stored questions of the topic. -/
theorem sampler_count_contract (db : DB) (rand : List Question → List Question)
    (tn cnt : String) (topic : Topic) (k : Int)
    (htn : tn ≠ "") (hcne : cnt ≠ "")
    (hfind : db.store.topics.find? (fun t => t.name == tn) = some topic)
    (hcnt : jsNumber? cnt = some k) (hk : 0 < k)
    (hnd : (db.store.questions.map Question.id).Nodup)
    (hperm : (rand (eligibleQuestions db topic.id)).Perm (eligibleQuestions db topic.id)) :
    ∃ out, sampleQuestions db rand (some tn) (some cnt) = Except.ok out ∧
      out.length = min k.toNat (eligibleQuestions db topic.id).length ∧
      (out.map SampledQuestion.id).Nodup := by
  refine ⟨_, sampleQuestions_ok db rand tn cnt topic k htn hcne hfind hcnt (le_of_lt hk),
    ?_, ?_⟩
  · rw [List.length_map, List.length_take, hperm.length_eq]
  · rw [List.map_map]
    have hcomp : (SampledQuestion.id ∘ fun q =>
        (⟨q.id, q.text, q.topicId, publicChoices db q.id⟩ : SampledQuestion))
        = Question.id := rfl
    rw [hcomp]
    have h1 : ((eligibleQuestions db topic.id).map Question.id).Nodup := by
      simp only [eligibleQuestions]
      exact List.Nodup.sublist (List.Sublist.map _ (List.filter_sublist _)) hnd
    have h2 : ((rand (eligibleQuestions db topic.id)).map Question.id).Nodup :=
      (hperm.map Question.id).nodup_iff.2 h1
    exact List.Nodup.sublist (List.Sublist.map _ (List.take_sublist _ _)) h2

/-- C2 (witness): an over-request of 5 questions on a topic with 2 returns
exactly 2 distinct questions. -/
theorem sampler_count_contract_witness :
    ("T" ≠ "") ∧ ("5" ≠ "") ∧
    dbT.store.topics.find? (fun t => t.name == "T") = some ⟨1, "T", 0⟩ ∧
    jsNumber? "5" = some 5 ∧ (0 : Int) < 5 ∧
    (dbT.store.questions.map Question.id).Nodup ∧
    (∃ out, sampleQuestions dbT (fun l => l) (some "T") (some "5") = Except.ok out ∧
      out.length = min (5 : Int).toNat
        (eligibleQuestions dbT (⟨1, "T", 0⟩ : Topic).id).length ∧
      (out.map SampledQuestion.id).Nodup) :=
  ⟨by decide, by decide, by decide, rfl, by decide, by decide,
    sampler_count_contract dbT (fun l => l) "T" "5" ⟨1, "T", 0⟩ 5 (by decide) (by decide)
      (by decide) rfl (by decide) (by decide) (List.Perm.refl _)⟩

theorem get_id_injective (l : List Question) (hnd : (l.map Question.id).Nodup)
    (a b : Fin l.length) (h : (l.get a).id = (l.get b).id) : a = b := by
  have hlen : (l.map Question.id).length = l.length := by simp
  have ha : (l.map Question.id).get (Fin.cast hlen.symm a) = (l.get a).id := by
    simp [List.get_eq_getElem, List.getElem_map]
  have hb : (l.map Question.id).get (Fin.cast hlen.symm b) = (l.get b).id := by
    simp [List.get_eq_getElem, List.getElem_map]
  have hc := (List.nodup_iff_injective_get.1 hnd) (ha.trans (h.trans hb.symm))
  apply Fin.ext
  have hv := congrArg Fin.val hc
  simpa using hv

theorem mem_take_permuteBy {n : Nat} (k : Nat) (σ : Equiv.Perm (Fin n))
    (v : Fin n → Question)
    (hinj : ∀ a b : Fin n, (v a).id = (v b).id → a = b) (i : Fin n) :
    (((permuteBy σ v).take k).any (fun q => q.id == (v i).id) = true)
      ↔ (σ.symm i : Nat) < k := by
  have hlen : (permuteBy σ v).length = n := by simp [permuteBy]
  rw [List.any_eq_true]
  constructor
  · rintro ⟨q, hq, hid⟩
    rw [List.mem_take_iff_getElem] at hq
    obtain ⟨p, hp, hqe⟩ := hq
    have hpn : p < n := lt_of_lt_of_le hp (le_trans (min_le_right _ _) (le_of_eq hlen))
    have hpl : p < (permuteBy σ v).length := by omega
    have hval : (permuteBy σ v)[p] = v (σ ⟨p, hpn⟩) := by
      simp [permuteBy, List.getElem_ofFn]
    rw [hval] at hqe
    have hqid : q.id = (v i).id := by simpa using hid
    rw [← hqe] at hqid
    have hσ : σ ⟨p, hpn⟩ = i := hinj _ _ hqid
    have : σ.symm i = ⟨p, hpn⟩ := by rw [← hσ, Equiv.symm_apply_apply]
    rw [this]
    exact lt_of_lt_of_le hp (min_le_left _ _)
  · intro hlt
    refine ⟨v i, ?_, by simp⟩
    rw [List.mem_take_iff_getElem]
    refine ⟨(σ.symm i : Nat), lt_min hlt (by rw [hlen]; exact (σ.symm i).isLt), ?_⟩
    have hbl : (σ.symm i : Nat) < (permuteBy σ v).length := by
      rw [hlen]; exact (σ.symm i).isLt
    have : (permuteBy σ v)[(σ.symm i : Nat)] = v (σ (σ.symm i)) := by
      simp [permuteBy, List.getElem_ofFn]
    rw [this, Equiv.apply_symm_apply]

theorem card_perm_pos_lt (n m : Nat) (i j : Fin n) :
    (Finset.univ.filter (fun σ : Equiv.Perm (Fin n) => (σ.symm i : Nat) < m)).card
  = (Finset.univ.filter (fun σ : Equiv.Perm (Fin n) => (σ.symm j : Nat) < m)).card := by
  apply Finset.card_bij (fun σ _ => σ.trans (Equiv.swap i j))
  · intro σ hσ
    have h1 := (Finset.mem_filter.1 hσ).2
    refine Finset.mem_filter.2 ⟨Finset.mem_univ _, ?_⟩
    have h2 : (σ.trans (Equiv.swap i j)).symm j = σ.symm i := by
      simp [Equiv.symm_trans_apply]
    rw [h2]
    exact h1
  · intro a ha b hb hab
    have h3 := congrArg (fun e => e.trans (Equiv.swap i j)) hab
    simpa [Equiv.trans_assoc, Equiv.swap_swap, Equiv.trans_refl] using h3
  · intro b hb
    have h1 := (Finset.mem_filter.1 hb).2
    refine ⟨b.trans (Equiv.swap i j), Finset.mem_filter.2 ⟨Finset.mem_univ _, ?_⟩, ?_⟩
    · have h2 : (b.trans (Equiv.swap i j)).symm i = b.symm j := by
        simp [Equiv.symm_trans_apply]
      rw [h2]
      exact h1
    · rw [Equiv.trans_assoc, Equiv.swap_swap, Equiv.trans_refl]

theorem list_any_map {α β : Type} (f : α → β) (l : List α) (p : β → Bool) :
    (l.map f).any p = l.any (p ∘ f) := by
  induction l with
  | nil => rfl
  | cons a l ih => simp [ih]

theorem sampleIncludes_iff (db : DB) (tn cnt : String) (topic : Topic) (k : Int)
    (htn : tn ≠ "") (hcne : cnt ≠ "")
    (hfind : db.store.topics.find? (fun t => t.name == tn) = some topic)
    (hcnt : jsNumber? cnt = some k) (hk : 0 ≤ k)
    (hnd : ((eligibleQuestions db topic.id).map Question.id).Nodup)
    (σ : Equiv.Perm (Fin (eligibleQuestions db topic.id).length))
    (i : Fin (eligibleQuestions db topic.id).length) :
    (sampleIncludes db (fun _ => permuteBy σ (eligibleQuestions db topic.id).get)
        (some tn) (some cnt) (((eligibleQuestions db topic.id).get i).id) = true)
      ↔ (σ.symm i : Nat) < k.toNat := by
  unfold sampleIncludes
  rw [sampleQuestions_ok db _ tn cnt topic k htn hcne hfind hcnt hk]
  dsimp only
  rw [list_any_map]
  have hc : ((fun (sq : SampledQuestion) => sq.id == ((eligibleQuestions db topic.id).get i).id) ∘
      (fun (q : Question) => (⟨q.id, q.text, q.topicId, publicChoices db q.id⟩ : SampledQuestion)))
      = fun (q : Question) => q.id == ((eligibleQuestions db topic.id).get i).id := rfl
  rw [hc]
  exact mem_take_permuteBy k.toNat σ (eligibleQuestions db topic.id).get
    (get_id_injective (eligibleQuestions db topic.id) hnd) i

/-- C4: with the random order modelled as a permutation of the eligible rows
drawn uniformly at random (see `permuteBy`), every question of the topic has
the same probability of being included in the sample: the number of
permutations whose sample contains a given question is the same for every
question of the topic. -/
theorem sampler_uniform_inclusion (db : DB) (tn cnt : String) (topic : Topic) (k : Int)
    (htn : tn ≠ "") (hcne : cnt ≠ "")
    (hfind : db.store.topics.find? (fun t => t.name == tn) = some topic)
    (hcnt : jsNumber? cnt = some k) (hk : 0 ≤ k)
    (hnd : ((eligibleQuestions db topic.id).map Question.id).Nodup)
    (i j : Fin (eligibleQuestions db topic.id).length) :
    (Finset.univ.filter
        (fun σ : Equiv.Perm (Fin (eligibleQuestions db topic.id).length) =>
          sampleIncludes db (fun _ => permuteBy σ (eligibleQuestions db topic.id).get)
            (some tn) (some cnt) (((eligibleQuestions db topic.id).get i).id) = true)).card
  = (Finset.univ.filter
        (fun σ : Equiv.Perm (Fin (eligibleQuestions db topic.id).length) =>
          sampleIncludes db (fun _ => permuteBy σ (eligibleQuestions db topic.id).get)
            (some tn) (some cnt) (((eligibleQuestions db topic.id).get j).id) = true)).card := by
  have h1 : (Finset.univ.filter
        (fun σ : Equiv.Perm (Fin (eligibleQuestions db topic.id).length) =>
          sampleIncludes db (fun _ => permuteBy σ (eligibleQuestions db topic.id).get)
            (some tn) (some cnt) (((eligibleQuestions db topic.id).get i).id) = true))
      = (Finset.univ.filter
        (fun σ : Equiv.Perm (Fin (eligibleQuestions db topic.id).length) =>
          (σ.symm i : Nat) < k.toNat)) :=
    Finset.filter_congr
      (fun σ _ => sampleIncludes_iff db tn cnt topic k htn hcne hfind hcnt hk hnd σ i)
  have h2 : (Finset.univ.filter
        (fun σ : Equiv.Perm (Fin (eligibleQuestions db topic.id).length) =>
          sampleIncludes db (fun _ => permuteBy σ (eligibleQuestions db topic.id).get)
            (some tn) (some cnt) (((eligibleQuestions db topic.id).get j).id) = true))
      = (Finset.univ.filter
        (fun σ : Equiv.Perm (Fin (eligibleQuestions db topic.id).length) =>
          (σ.symm j : Nat) < k.toNat)) :=
    Finset.filter_congr
      (fun σ _ => sampleIncludes_iff db tn cnt topic k htn hcne hfind hcnt hk hnd σ j)
  rw [h1, h2]
  exact card_perm_pos_lt _ k.toNat i j

/-- C4 (witness): the two questions of topic "T" are included equally often
over all random orders when one question is sampled. -/
theorem sampler_uniform_inclusion_witness :
    ("T" ≠ "") ∧ ("1" ≠ "") ∧
    dbT.store.topics.find? (fun t => t.name == "T") = some ⟨1, "T", 0⟩ ∧
    jsNumber? "1" = some 1 ∧ (0 : Int) ≤ 1 ∧
    ((eligibleQuestions dbT (⟨1, "T", 0⟩ : Topic).id).map Question.id).Nodup ∧
    (Finset.univ.filter
        (fun σ : Equiv.Perm (Fin (eligibleQuestions dbT (⟨1, "T", 0⟩ : Topic).id).length) =>
          sampleIncludes dbT
            (fun _ => permuteBy σ (eligibleQuestions dbT (⟨1, "T", 0⟩ : Topic).id).get)
            (some "T") (some "1")
            (((eligibleQuestions dbT (⟨1, "T", 0⟩ : Topic).id).get ⟨0, by decide⟩).id)
            = true)).card
      = (Finset.univ.filter
        (fun σ : Equiv.Perm (Fin (eligibleQuestions dbT (⟨1, "T", 0⟩ : Topic).id).length) =>
          sampleIncludes dbT
            (fun _ => permuteBy σ (eligibleQuestions dbT (⟨1, "T", 0⟩ : Topic).id).get)
            (some "T") (some "1")
            (((eligibleQuestions dbT (⟨1, "T", 0⟩ : Topic).id).get ⟨1, by decide⟩).id)
            = true)).card :=
  ⟨by decide, by decide, by decide, rfl, by decide, by decide,
    sampler_uniform_inclusion dbT "T" "1" ⟨1, "T", 0⟩ 1 (by decide) (by decide)
      (by decide) rfl (by decide) (by decide) ⟨0, by decide⟩ ⟨1, by decide⟩⟩
